import Mathlib

/-!
Verification development for the Learnon education workflow core
(`src/server/services/education/{models,workflows,orchestrator}.py`).

Shallow embedding conventions:
* Python enums `ProcessType` / `StepType` become closed inductive types.
* `ProcessInstance` / `StepResult` dataclasses become structures; the
  `context` dict written by the orchestrator carries exactly the keys
  `citations`, `user_input` and (optionally) `score`, so it is embedded as
  a structure whose `score` field distinguishes absent / non-numeric /
  numeric values (the orchestrator checks `isinstance(…, (int, float))`).
* Python floats are modelled as rationals; all score constants used by the
  code (0.5, 0.6, 0.7, 0.75, 0.8, 0.85, 1.0) are exact in decimal.
* Collaborators are oracles passed as arguments: the RAG search outcome is
  an `Except` value (the orchestrator swallows failures into `[]`), the
  session-store write outcome is a `Bool` flag (the Python service never
  raises: it returns an `(ok, payload)` tuple, which the orchestrator
  discards — this discard is kept explicitly in the embedding).  Each
  operation additionally reports the list of instances it handed to
  `save_session`/`create_session`, so that claims about persistence writes
  can be stated.
* Progress-event emission is wrapped in `try/except: pass` in the source
  (best-effort observability, no effect on results or state) and is not
  modelled.
* `datetime.now()` timestamps are threaded in as a `now : String` argument.
-/

namespace Learnon

/-- Enum `StepType` from `models.py` (`example` is a Lean keyword, hence the
guillemets). -/
inductive StepType
  | explain
  | «example»
  | exercise
  | evaluate
  | feedback
deriving DecidableEq

/-- Enum `ProcessType` from `models.py`. -/
inductive ProcessType
  | fundamental_explanation
  | guided_practice
  | assessment
deriving DecidableEq

/-- `ProcessType(s)`: the Python enum constructor, which raises `ValueError`
(modelled as `none`) when `s` is not one of the member values. -/
def ProcessType.ofString (s : String) : Option ProcessType :=
  if s = "fundamental_explanation" then some ProcessType.fundamental_explanation
  else if s = "guided_practice" then some ProcessType.guided_practice
  else if s = "assessment" then some ProcessType.assessment
  else none

/-- A citation record returned by the RAG collaborator; its contents are
opaque to the education core, so a string stands in for the record. -/
abbrev Citation := String

/-- The numeric-or-not `"score"` entry of a `StepResult.context` dict.
`numeric` corresponds to an `int`/`float` value (the only kind the
orchestrator ever writes); `nonNumeric` models a value of any other type,
which the history scan in `suggest_next_step` skips. -/
inductive ScoreField
  | absent
  | nonNumeric
  | numeric (q : ℚ)
deriving DecidableEq

/-- `true` iff the field holds an `int`/`float`, i.e. the
`isinstance(h.context.get("score"), (int, float))` test of the source. -/
def ScoreField.isNumeric : ScoreField → Bool
  | ScoreField.numeric _ => true
  | _ => false

/-- The numeric value when present (`float(h.context["score"])`). -/
def ScoreField.toRat : ScoreField → Option ℚ
  | ScoreField.numeric q => some q
  | _ => none

/-- The `context` mapping attached to a `StepResult` by `advance`:
`{"citations": …, "user_input": …}` plus `"score"` when one was computed. -/
structure Ctx where
  citations : List Citation
  user_input : Option String
  score : ScoreField
deriving DecidableEq

/-- Dataclass `StepResult` from `models.py`. -/
structure StepResult where
  step : StepType
  content : String
  context : Ctx
  created_at : String
deriving DecidableEq

/-- Dataclass `ProcessInstance` from `models.py`.  `current_index` starts at
0 and is only ever incremented by the orchestrator, so it is embedded as a
natural number. -/
structure ProcessInstance where
  id : String
  user_id : String
  topic : String
  process_type : ProcessType
  steps : List StepType
  current_index : ℕ
  history : List StepResult
  created_at : String
  updated_at : String
deriving DecidableEq

/-- `ProcessInstance.is_complete`: `self.current_index >= len(self.steps)`. -/
def ProcessInstance.is_complete (inst : ProcessInstance) : Bool :=
  inst.steps.length ≤ inst.current_index

/-- `ProcessInstance.current_step` returns `self.steps[self.current_index]`;
the Python expression raises `IndexError` out of bounds, modelled by
`none`. -/
def ProcessInstance.current_step (inst : ProcessInstance) : Option StepType :=
  inst.steps[inst.current_index]?

/-- The dict `DEFAULT_WORKFLOWS` from `workflows.py`, as an association
list in source order. -/
def DEFAULT_WORKFLOWS : List (ProcessType × List StepType) :=
  [ (ProcessType.fundamental_explanation,
      [StepType.explain, StepType.«example», StepType.exercise,
       StepType.evaluate, StepType.feedback]),
    (ProcessType.guided_practice,
      [StepType.«example», StepType.exercise, StepType.feedback]),
    (ProcessType.assessment,
      [StepType.exercise, StepType.evaluate, StepType.feedback]) ]

/-- `get_workflow`: `DEFAULT_WORKFLOWS.get(process_type,
DEFAULT_WORKFLOWS[ProcessType.fundamental_explanation])`. -/
def get_workflow (process_type : ProcessType) : List StepType :=
  (DEFAULT_WORKFLOWS.lookup process_type).getD
    ((DEFAULT_WORKFLOWS.lookup ProcessType.fundamental_explanation).getD [])

/-- `get_workflow` applied to a raw key.  `ProcessType` is a `str`-valued
enum, so a plain string key hits the dict entry whose member value equals
it, and any other key falls to the `.get` default (the
`fundamental_explanation` sequence); no exception is possible. -/
def get_workflow_raw (key : String) : List StepType :=
  match ProcessType.ofString key with
  | some p => get_workflow p
  | none => get_workflow ProcessType.fundamental_explanation

/-- Python truthiness of the `user_input: str | None` argument, as used in
`1.0 if user_input else 0.5`: `None` and the empty string are falsy. -/
def isTruthy : Option String → Bool
  | none => false
  | some s => s ≠ ""

/-- A single quote character, used inside generated content strings. -/
def sq : String := String.singleton (Char.ofNat 39)

/-- Renders a nonnegative rational the way `f"{score:.2f}"` renders the
scores the orchestrator produces (two decimal places). -/
def fmt2 (q : ℚ) : String :=
  let c : ℤ := Rat.floor (q * 100)
  toString (c / 100) ++ "." ++ (if c % 100 < 10 then "0" else "")
    ++ toString (c % 100)

/-- `EducationSessionService.create_session` / `save_session`: the service
catches every exception and returns an `(ok, payload)` pair, never raising.
The `ok` flag is the oracle for whether the Supabase write succeeded. -/
def session_write (ok : Bool) (inst : ProcessInstance) :
    Bool × Option ProcessInstance :=
  (ok, if ok then some inst else none)

/-- The body of the `if`/`elif` chain of `advance` that builds the step
content and the optional score from the current step, the topic and the
user input (the `else: content = ""` arm of the source is unreachable for
the closed `StepType` enum). -/
def exec_step (topic : String) (step : StepType) (user_input : Option String) :
    Option ℚ × String :=
  match step with
  | StepType.explain =>
      (none, "Explicação do tópico " ++ sq ++ topic ++ sq
        ++ " com base em fontes relevantes.")
  | StepType.«example» =>
      (none, "Exemplo prático sobre " ++ sq ++ topic ++ sq ++ ".")
  | StepType.exercise =>
      (none, "Exercício proposto: resolva um problema relacionado a "
        ++ sq ++ topic ++ sq ++ ".")
  | StepType.evaluate =>
      let score : ℚ := if isTruthy user_input then 1.0 else 0.5
      (some score, "Avaliação da resposta: score=" ++ fmt2 score ++ ".")
  | StepType.feedback =>
      (none, "Feedback objetivo e próximos passos.")

/-- The dict returned by `EducationOrchestrator.advance` (minus the
`"instance"` echo).  `notFound` is `{"success": False, "error":
"process_not_found"}`; `alreadyComplete` is `{"success": True, "completed":
True}` with no `"result"` key; `advanced` is the `{"success": True,
"completed": …, "result": …}` dict; `raised` models an exception escaping
the method (an out-of-bounds `current_step`). -/
inductive AdvanceResponse
  | notFound
  | alreadyComplete
  | advanced (completed : Bool) (result : StepResult)
  | raised
deriving DecidableEq

/-- The `"success"` key of the response dict (`raised` produces no dict and
reports no success). -/
def AdvanceResponse.success : AdvanceResponse → Bool
  | AdvanceResponse.notFound => false
  | AdvanceResponse.alreadyComplete => true
  | AdvanceResponse.advanced _ _ => true
  | AdvanceResponse.raised => false

/-- The `"result"` entry of the response dict, when present. -/
def AdvanceResponse.resultOf : AdvanceResponse → Option StepResult
  | AdvanceResponse.advanced _ r => some r
  | _ => none

/-- Outcome of one `advance` call: the response dict, the in-memory
instance after the call, and the instances handed to `save_session`. -/
structure AdvanceOut where
  resp : AdvanceResponse
  inst : ProcessInstance
  writes : List ProcessInstance
deriving DecidableEq

/-- `EducationOrchestrator.advance` on a fetched instance.  `rag` is the
outcome of `self.rag.search_documents` (failure is swallowed into `[]`);
`saveOk` is whether the `save_session` write succeeds — the source discards
that flag, which the embedding keeps as a discarded `let`. -/
def advance_core (inst : ProcessInstance) (user_input : Option String)
    (rag : Except String (List Citation)) (saveOk : Bool) (now : String) :
    AdvanceOut :=
  if inst.is_complete then
    { resp := AdvanceResponse.alreadyComplete, inst := inst, writes := [] }
  else
    match inst.current_step with
    | none =>
        -- steps[current_index] raises IndexError; unreachable for states
        -- the orchestrator itself builds (see the safety theorems).
        { resp := AdvanceResponse.raised, inst := inst, writes := [] }
    | some step =>
        let context_chunks : List Citation :=
          match rag with
          | Except.ok l => l
          | Except.error _ => []
        let sc := exec_step inst.topic step user_input
        let context : Ctx :=
          { citations := context_chunks, user_input := user_input,
            score := match sc.1 with
              | some q => ScoreField.numeric q
              | none => ScoreField.absent }
        let result : StepResult :=
          { step := step, content := sc.2, context := context,
            created_at := now }
        let inst2 : ProcessInstance :=
          { inst with history := inst.history ++ [result],
                      current_index := inst.current_index + 1 }
        let _saved := session_write saveOk inst2
        { resp := AdvanceResponse.advanced inst2.is_complete result,
          inst := inst2, writes := [inst2] }

/-- `advance` including the store fetch (`get_session`): `fetch = none`
models an unknown process id. -/
def advance_op (fetch : Option ProcessInstance) (user_input : Option String)
    (rag : Except String (List Citation)) (saveOk : Bool) (now : String) :
    AdvanceOut :=
  match fetch with
  | none =>
      { resp := AdvanceResponse.notFound,
        inst := { id := "", user_id := "", topic := "",
                  process_type := ProcessType.fundamental_explanation,
                  steps := [], current_index := 0, history := [],
                  created_at := "", updated_at := "" },
        writes := [] }
  | some inst => advance_core inst user_input rag saveOk now

/-- `EducationOrchestrator.start_process`: parses the process type (raising
`ValueError`, i.e. `Except.error`, on an unknown string), resolves the
workflow, builds the instance, calls `create_session` and discards its
outcome, and returns the instance.  `pid` stands for the generated uuid. -/
def start_process (pid user_id topic process_type : String)
    (createOk : Bool) (now : String) : Except String ProcessInstance :=
  match ProcessType.ofString process_type with
  | none => Except.error "invalid process_type"
  | some ptype =>
      let steps := get_workflow ptype
      let inst : ProcessInstance :=
        { id := pid, user_id := user_id, topic := topic,
          process_type := ptype, steps := steps, current_index := 0,
          history := [], created_at := now, updated_at := now }
      let _created := session_write createOk inst
      Except.ok inst

/-- The `for h in reversed(instance.history)` loop of `suggest_next_step`,
written over the already-reversed list: the first entry whose step is
`evaluate` and whose context `"score"` is numeric wins. -/
def find_eval_score : List StepResult → Option ℚ
  | [] => none
  | h :: t =>
      match h.step, h.context.score with
      | StepType.evaluate, ScoreField.numeric q => some q
      | _, _ => find_eval_score t

/-- The "determine last known score if not provided" block of
`suggest_next_step` (lines 126–131): a supplied score wins, otherwise the
history is scanned newest-first. -/
def effective_score (inst : ProcessInstance) (score : Option ℚ) : Option ℚ :=
  match score with
  | some s => some s
  | none => find_eval_score inst.history.reverse

/-- The dict returned by `EducationOrchestrator.suggest_next_step`.
`notFound` is `{"success": False, "error": "process_not_found"}`;
`completedResp` is the early `{"success": True, "completed": True,
"suggestion": None}`; `suggested` is the full final dict (the suggestion is
kept as a `StepType` rather than its `str(…)` rendering). -/
inductive SuggestResponse
  | notFound
  | completedResp
  | suggested (completed : Bool) (suggestion : Option StepType)
      (rationale : String) (confidence : ℚ) (applied : Bool)
deriving DecidableEq

/-- The `"suggestion"` entry of the final dict, when present. -/
def SuggestResponse.sugg : SuggestResponse → Option StepType
  | SuggestResponse.suggested _ s _ _ _ => s
  | _ => none

/-- The `"confidence"` entry of the response dict, when present. -/
def SuggestResponse.conf : SuggestResponse → Option ℚ
  | SuggestResponse.suggested _ _ _ c _ => some c
  | _ => none

/-- The `"applied"` entry of the response dict, when present. -/
def SuggestResponse.appliedOf : SuggestResponse → Option Bool
  | SuggestResponse.suggested _ _ _ _ a => some a
  | _ => none

/-- Outcome of one `suggest_next_step` call: the response dict, the
in-memory instance after the call, and the instances handed to
`save_session`. -/
structure SuggestOut where
  resp : SuggestResponse
  inst : ProcessInstance
  writes : List ProcessInstance
deriving DecidableEq

/-- `EducationOrchestrator.suggest_next_step` on a fetched instance.
`saveOk` is the discarded outcome of the `save_session` call made on the
apply path. -/
def suggest_core (inst : ProcessInstance) (score : Option ℚ)
    (apply : Bool) (saveOk : Bool) : SuggestOut :=
  if inst.is_complete then
    { resp := SuggestResponse.completedResp, inst := inst, writes := [] }
  else
    let last_score : Option ℚ := effective_score inst score
    -- Default: proceed to the next planned step.
    let default_next : Option StepType :=
      if inst.current_index < inst.steps.length then
        inst.steps[inst.current_index]?
      else none
    let dec : Option StepType × String × ℚ :=
      match last_score with
      | none => (default_next, "Progredir conforme o fluxo padrão.", 0.6)
      | some s =>
          if s < 0.6 then
            (some (if inst.steps.contains StepType.explain then
                     StepType.explain
                   else StepType.«example»),
             "Desempenho baixo (score=" ++ fmt2 s
               ++ "); reforçar explicação/exemplo.", 0.8)
          else if s < 0.85 then
            (some StepType.exercise,
             "Desempenho razoável (score=" ++ fmt2 s
               ++ "); praticar com novo exercício.", 0.7)
          else
            (some StepType.feedback,
             "Desempenho alto (score=" ++ fmt2 s
               ++ "); consolidar com feedback e concluir.", 0.75)
    match dec.1 with
    | some sugg =>
        if apply then
          -- Insert suggestion at current index so it becomes the next step.
          let inst2 : ProcessInstance :=
            { inst with steps := inst.steps.take inst.current_index
                ++ [sugg] ++ inst.steps.drop inst.current_index }
          let _saved := session_write saveOk inst2
          { resp := SuggestResponse.suggested inst2.is_complete (some sugg)
              dec.2.1 dec.2.2 true,
            inst := inst2, writes := [inst2] }
        else
          { resp := SuggestResponse.suggested inst.is_complete (some sugg)
              dec.2.1 dec.2.2 false,
            inst := inst, writes := [] }
    | none =>
        { resp := SuggestResponse.suggested inst.is_complete none
            dec.2.1 dec.2.2 false,
          inst := inst, writes := [] }

/-- `suggest_next_step` including the store fetch (`get_session`). -/
def suggest_op (fetch : Option ProcessInstance) (score : Option ℚ)
    (apply : Bool) (saveOk : Bool) : SuggestOut :=
  match fetch with
  | none =>
      { resp := SuggestResponse.notFound,
        inst := { id := "", user_id := "", topic := "",
                  process_type := ProcessType.fundamental_explanation,
                  steps := [], current_index := 0, history := [],
                  created_at := "", updated_at := "" },
        writes := [] }
  | some inst => suggest_core inst score apply saveOk

/-- The `"current_step"` field computed by the `GET
/api/education/processes/{id}` endpoint: `str(inst.current_step()) if not
inst.is_complete() else None`; `Except.error` models the `IndexError` the
underlying index would raise out of bounds. -/
def api_current_step_field (inst : ProcessInstance) :
    Except Unit (Option StepType) :=
  if inst.is_complete then Except.ok none
  else
    match inst.current_step with
    | some s => Except.ok (some s)
    | none => Except.error ()

/-- States reachable from `start_process` by any sequence of `advance` and
`suggest_next_step` calls, with arbitrary collaborator outcomes. -/
inductive Reachable : ProcessInstance → Prop
  | start (pid user_id topic process_type : String) (createOk : Bool)
      (now : String) (inst : ProcessInstance)
      (h : start_process pid user_id topic process_type createOk now
             = Except.ok inst) :
      Reachable inst
  | advance (inst : ProcessInstance) (user_input : Option String)
      (rag : Except String (List Citation)) (saveOk : Bool) (now : String)
      (h : Reachable inst) :
      Reachable (advance_core inst user_input rag saveOk now).inst
  | suggest (inst : ProcessInstance) (score : Option ℚ)
      (apply saveOk : Bool) (h : Reachable inst) :
      Reachable (suggest_core inst score apply saveOk).inst

/-- The loop condition of the history scan in `suggest_next_step`:
`h.step == StepType.evaluate and isinstance(h.context.get("score"), (int,
float))`. -/
def isEvalNumeric (r : StepResult) : Bool :=
  r.step == StepType.evaluate && r.context.score.isNumeric

/-- A freshly started `fundamental_explanation` instance (the instance
`start_process` builds for user `u1`, topic `loops`), used as a concrete
test vehicle in witnesses. -/
def sampleFundamental : ProcessInstance :=
  { id := "p1", user_id := "u1", topic := "loops",
    process_type := ProcessType.fundamental_explanation,
    steps := [StepType.explain, StepType.«example», StepType.exercise,
              StepType.evaluate, StepType.feedback],
    current_index := 0, history := [], created_at := "t0",
    updated_at := "t0" }

/-- A finished `assessment` instance (cursor past the last step), used as a
concrete test vehicle in witnesses. -/
def sampleDone : ProcessInstance :=
  { id := "p2", user_id := "u1", topic := "loops",
    process_type := ProcessType.assessment,
    steps := [StepType.exercise, StepType.evaluate, StepType.feedback],
    current_index := 3, history := [], created_at := "t0",
    updated_at := "t0" }

/-- A `fundamental_explanation` instance whose cursor sits on the
`evaluate` step, used as a concrete test vehicle in witnesses. -/
def sampleAtEvaluate : ProcessInstance :=
  { id := "p3", user_id := "u1", topic := "loops",
    process_type := ProcessType.fundamental_explanation,
    steps := [StepType.explain, StepType.«example», StepType.exercise,
              StepType.evaluate, StepType.feedback],
    current_index := 3, history := [], created_at := "t0",
    updated_at := "t0" }

/-- An `evaluate` step result carrying a numeric score of 1.0, used as a
concrete test vehicle in witnesses. -/
def sampleEvalResult : StepResult :=
  { step := StepType.evaluate, content := "Avaliação da resposta: score=1.00.",
    context := { citations := [], user_input := some "x",
                 score := ScoreField.numeric 1.0 },
    created_at := "t4" }

/-- A `fundamental_explanation` instance whose cursor sits on the
`feedback` step, with a history whose newest entry is an `evaluate` result
with a numeric score, used as a concrete test vehicle in witnesses. -/
def sampleAtFeedback : ProcessInstance :=
  { id := "p4", user_id := "u1", topic := "loops",
    process_type := ProcessType.fundamental_explanation,
    steps := [StepType.explain, StepType.«example», StepType.exercise,
              StepType.evaluate, StepType.feedback],
    current_index := 4,
    history :=
      [ { step := StepType.explain, content := "",
          context := { citations := [], user_input := none,
                       score := ScoreField.absent }, created_at := "t1" },
        { step := StepType.«example», content := "",
          context := { citations := [], user_input := none,
                       score := ScoreField.absent }, created_at := "t2" },
        { step := StepType.exercise, content := "",
          context := { citations := [], user_input := none,
                       score := ScoreField.absent }, created_at := "t3" },
        sampleEvalResult ],
    created_at := "t0", updated_at := "t0" }

/-! ## Theorems -/

/-- `is_complete` is the test `len(steps) <= current_index`. -/
theorem is_complete_true_iff (inst : ProcessInstance) :
    inst.is_complete = true ↔ inst.steps.length ≤ inst.current_index := by
  simp [ProcessInstance.is_complete]

/-- A process is not complete exactly when the cursor is strictly inside
the steps list. -/
theorem is_complete_false_iff (inst : ProcessInstance) :
    inst.is_complete = false ↔ inst.current_index < inst.steps.length := by
  simp [ProcessInstance.is_complete, Nat.not_le]

/-- C7: the workflow catalog lookup is a total function: for
`fundamental_explanation` it returns exactly `[explain, example, exercise,
evaluate, feedback]`, for `guided_practice` exactly `[example, exercise,
feedback]`, for `assessment` exactly `[exercise, evaluate, feedback]`, and
for any other key it returns the `fundamental_explanation` sequence without
raising an error. -/
theorem get_workflow_total :
    get_workflow ProcessType.fundamental_explanation
        = [StepType.explain, StepType.«example», StepType.exercise,
           StepType.evaluate, StepType.feedback]
    ∧ get_workflow ProcessType.guided_practice
        = [StepType.«example», StepType.exercise, StepType.feedback]
    ∧ get_workflow ProcessType.assessment
        = [StepType.exercise, StepType.evaluate, StepType.feedback]
    ∧ ∀ key : String, ProcessType.ofString key = none →
        get_workflow_raw key
          = [StepType.explain, StepType.«example», StepType.exercise,
             StepType.evaluate, StepType.feedback] := by
  refine ⟨rfl, rfl, rfl, ?_⟩
  intro key h
  simp only [get_workflow_raw, h]
  rfl

/-- Witness for C7: the unknown key `"quiz"` falls back to the
`fundamental_explanation` sequence. -/
theorem get_workflow_total_witness :
    ProcessType.ofString "quiz" = none
    ∧ get_workflow_raw "quiz"
        = [StepType.explain, StepType.«example», StepType.exercise,
           StepType.evaluate, StepType.feedback] :=
  ⟨by decide, get_workflow_total.2.2.2 "quiz" (by decide)⟩

/-- C4: advancing a complete process (`current_index == len(steps)`) is an
idempotent no-op: the call succeeds with the completed response, produces
no new `StepResult`, leaves the instance (hence history and
`current_index`) unchanged, performs no store write, never raises, and
iterating it any number of times keeps the instance fixed. -/
theorem advance_complete_noop (inst : ProcessInstance)
    (user_input : Option String) (rag : Except String (List Citation))
    (saveOk : Bool) (now : String) (h : inst.is_complete = true) :
    (advance_core inst user_input rag saveOk now).resp
        = AdvanceResponse.alreadyComplete
    ∧ (advance_core inst user_input rag saveOk now).resp.success = true
    ∧ (advance_core inst user_input rag saveOk now).resp.resultOf = none
    ∧ (advance_core inst user_input rag saveOk now).inst = inst
    ∧ (advance_core inst user_input rag saveOk now).writes = []
    ∧ ∀ n : ℕ,
        (fun i => (advance_core i user_input rag saveOk now).inst)^[n] inst
          = inst := by
  have hstep : advance_core inst user_input rag saveOk now =
      { resp := AdvanceResponse.alreadyComplete, inst := inst,
        writes := [] } := by
    simp [advance_core, h]
  refine ⟨by rw [hstep], by rw [hstep]; rfl, by rw [hstep]; rfl,
    by rw [hstep], by rw [hstep], ?_⟩
  intro n
  induction n with
  | zero => rfl
  | succ k ih =>
      rw [Function.iterate_succ_apply', ih]
      show (advance_core inst user_input rag saveOk now).inst = inst
      rw [hstep]

/-- Witness for C4: a finished assessment process. -/
theorem advance_complete_noop_witness :
    sampleDone.is_complete = true
    ∧ (advance_core sampleDone none (Except.ok []) true "t1").resp
        = AdvanceResponse.alreadyComplete
    ∧ (advance_core sampleDone none (Except.ok []) true "t1").inst
        = sampleDone :=
  ⟨by decide,
   (advance_complete_noop sampleDone none (Except.ok []) true "t1"
      (by decide)).1,
   (advance_complete_noop sampleDone none (Except.ok []) true "t1"
      (by decide)).2.2.2.1⟩

/-- C9: `suggest_next_step` with `apply=False` is read-only: the instance
is unchanged and no `save_session` write is performed, for every process
(complete or not) and every score argument. -/
theorem suggest_apply_false_readonly (inst : ProcessInstance)
    (score : Option ℚ) (saveOk : Bool) :
    (suggest_core inst score false saveOk).inst = inst
    ∧ (suggest_core inst score false saveOk).writes = [] := by
  by_cases hc : inst.is_complete
  · simp [suggest_core, hc]
  · have hc' : inst.is_complete = false := by
      cases h : inst.is_complete
      · rfl
      · exact absurd h hc
    have hlt : inst.current_index < inst.steps.length :=
      (is_complete_false_iff inst).mp hc'
    rcases heff : effective_score inst score with _ | s
    · simp [suggest_core, hc, heff, hlt, List.getElem?_eq_getElem hlt]
    · by_cases h1 : s < 0.6
      · simp [suggest_core, hc, heff, h1]
      · by_cases h2 : s < 0.85
        · simp [suggest_core, hc, heff, h1, h2]
        · simp [suggest_core, hc, heff, h1, h2]

/-- C3 (refuting the claim as stated): the orchestrator discards the
success flag returned by the session store, so a failed write is not
surfaced.  With the store rejecting every write (`createOk = saveOk =
false`), `start_process` still returns the instance and `advance` still
reports `success = True` after attempting exactly one write. -/
theorem persistence_failure_not_surfaced :
    start_process "p1" "u1" "loops" "fundamental_explanation" false "t0"
        = Except.ok sampleFundamental
    ∧ (advance_core sampleFundamental none (Except.ok []) false
          "t1").resp.success = true
    ∧ (advance_core sampleFundamental none (Except.ok []) false
          "t1").writes.length = 1 :=
  ⟨rfl, by decide, by decide⟩

/-- C1: for every process that is not complete, `suggest_next_step` with an
effective last score `s` suggests: `explain` when `s < 0.6` and `explain`
occurs in the steps list, `example` when `s < 0.6` otherwise (confidence
0.8); `exercise` when `0.6 ≤ s < 0.85` (confidence 0.7); `feedback` when
`0.85 ≤ s` (confidence 0.75); and with no effective score the next planned
step `steps[current_index]` (confidence 0.6). -/
theorem suggestion_policy_table (inst : ProcessInstance) (score : Option ℚ)
    (apply saveOk : Bool) (h : inst.is_complete = false) :
    (∀ s : ℚ, effective_score inst score = some s →
      (s < 0.6 →
        (suggest_core inst score apply saveOk).resp.sugg
            = some (if inst.steps.contains StepType.explain then
                      StepType.explain
                    else StepType.«example»)
        ∧ (suggest_core inst score apply saveOk).resp.conf = some 0.8)
      ∧ (0.6 ≤ s → s < 0.85 →
        (suggest_core inst score apply saveOk).resp.sugg
            = some StepType.exercise
        ∧ (suggest_core inst score apply saveOk).resp.conf = some 0.7)
      ∧ (0.85 ≤ s →
        (suggest_core inst score apply saveOk).resp.sugg
            = some StepType.feedback
        ∧ (suggest_core inst score apply saveOk).resp.conf = some 0.75))
    ∧ (effective_score inst score = none →
        (suggest_core inst score apply saveOk).resp.sugg
            = inst.steps[inst.current_index]?
        ∧ (suggest_core inst score apply saveOk).resp.conf = some 0.6) := by
  have hlt : inst.current_index < inst.steps.length :=
    (is_complete_false_iff inst).mp h
  have hc : ¬ inst.is_complete = true := by simp [h]
  constructor
  · intro s heff
    refine ⟨fun h1 => ?_, fun h1 h2 => ?_, fun h1 => ?_⟩
    · cases apply <;>
        simp [suggest_core, hc, heff, h1, SuggestResponse.sugg,
          SuggestResponse.conf]
    · have h1' : ¬ s < 0.6 := not_lt.mpr h1
      cases apply <;>
        simp [suggest_core, hc, heff, h1', h2, SuggestResponse.sugg,
          SuggestResponse.conf]
    · have h1' : ¬ s < 0.6 := not_lt.mpr (le_trans (by norm_num) h1)
      have h2' : ¬ s < 0.85 := not_lt.mpr h1
      cases apply <;>
        simp [suggest_core, hc, heff, h1', h2', SuggestResponse.sugg,
          SuggestResponse.conf]
  · intro heff
    cases apply <;>
      simp [suggest_core, hc, heff, hlt, List.getElem?_eq_getElem hlt,
        SuggestResponse.sugg, SuggestResponse.conf]

/-- Witness for C1: a fresh fundamental_explanation process with supplied
score 0.5 is steered back to `explain` with confidence 0.8. -/
theorem suggestion_policy_table_witness :
    sampleFundamental.is_complete = false
    ∧ effective_score sampleFundamental (some 0.5) = some 0.5
    ∧ (0.5 : ℚ) < 0.6
    ∧ (suggest_core sampleFundamental (some 0.5) false true).resp.sugg
        = some StepType.explain
    ∧ (suggest_core sampleFundamental (some 0.5) false true).resp.conf
        = some 0.8 := by
  have h := (suggestion_policy_table sampleFundamental (some 0.5) false true
      (by decide)).1 0.5 rfl
  have h1 := h.1 (by norm_num)
  refine ⟨by decide, rfl, by norm_num, ?_, h1.2⟩
  rw [h1.1]
  decide

/-- C5: for every non-complete process, `suggest_next_step` with
`apply=True` and a non-null suggestion `g` produces a steps list equal to
the old one with exactly `g` inserted at `current_index` (the prefix before
the cursor unchanged, every later step shifted back by one), leaves history
and `current_index` unchanged, and reports `applied=True`. -/
theorem suggest_apply_inserts (inst : ProcessInstance) (score : Option ℚ)
    (saveOk : Bool) (g : StepType) (h : inst.is_complete = false)
    (hs : (suggest_core inst score true saveOk).resp.sugg = some g) :
    (suggest_core inst score true saveOk).inst.steps
        = inst.steps.take inst.current_index ++ [g]
          ++ inst.steps.drop inst.current_index
    ∧ (suggest_core inst score true saveOk).inst.steps.length
        = inst.steps.length + 1
    ∧ (suggest_core inst score true saveOk).inst.history = inst.history
    ∧ (suggest_core inst score true saveOk).inst.current_index
        = inst.current_index
    ∧ (suggest_core inst score true saveOk).resp.appliedOf = some true := by
  have hlt : inst.current_index < inst.steps.length :=
    (is_complete_false_iff inst).mp h
  have hle : inst.current_index ≤ inst.steps.length := le_of_lt hlt
  rcases heff : effective_score inst score with _ | s
  · simp [suggest_core, h, heff, hlt, List.getElem?_eq_getElem hlt,
      SuggestResponse.sugg, SuggestResponse.appliedOf] at hs ⊢
    constructor
    · rw [List.take_succ, List.getElem?_eq_getElem hlt, hs]
      simp
    · omega
  · by_cases h1 : s < 0.6
    · simp [suggest_core, h, heff, h1, SuggestResponse.sugg,
        SuggestResponse.appliedOf] at hs ⊢
      exact ⟨hs, by omega⟩
    · by_cases h2 : s < 0.85
      · simp [suggest_core, h, heff, h1, h2, SuggestResponse.sugg,
          SuggestResponse.appliedOf] at hs ⊢
        exact ⟨hs, by omega⟩
      · simp [suggest_core, h, heff, h1, h2, SuggestResponse.sugg,
          SuggestResponse.appliedOf] at hs ⊢
        exact ⟨hs, by omega⟩

/-- Witness for C5: applying the 0.5-score suggestion to a fresh
fundamental_explanation process inserts `explain` at index 0. -/
theorem suggest_apply_inserts_witness :
    sampleFundamental.is_complete = false
    ∧ (suggest_core sampleFundamental (some 0.5) true true).resp.sugg
        = some StepType.explain
    ∧ (suggest_core sampleFundamental (some 0.5) true true).inst.steps
        = sampleFundamental.steps.take 0 ++ [StepType.explain]
          ++ sampleFundamental.steps.drop 0
    ∧ (suggest_core sampleFundamental (some 0.5) true
          true).inst.current_index = 0
    ∧ (suggest_core sampleFundamental (some 0.5) true true).resp.appliedOf
        = some true := by
  have hs : (suggest_core sampleFundamental (some 0.5) true true).resp.sugg
      = some StepType.explain := by
    norm_num [suggest_core, sampleFundamental, effective_score,
      ProcessInstance.is_complete, SuggestResponse.sugg]
  have h := suggest_apply_inserts sampleFundamental (some 0.5) true
    StepType.explain (by decide) hs
  exact ⟨by decide, hs, h.1, h.2.2.2.1, h.2.2.2.2⟩

/-- C6: when `advance` executes an `evaluate` step the produced
`StepResult` carries score 1.0 if `user_input` is a present non-empty
string and 0.5 if absent or empty, stored under the `"score"` key of the
result's context; for the other step kinds no score is produced.  The
result is the one appended to history. -/
theorem advance_evaluate_score (inst : ProcessInstance)
    (user_input : Option String) (rag : Except String (List Citation))
    (saveOk : Bool) (now : String) (st : StepType)
    (h : inst.is_complete = false) (hstep : inst.current_step = some st) :
    ((advance_core inst user_input rag saveOk now).resp.resultOf).map
        StepResult.step = some st
    ∧ ((advance_core inst user_input rag saveOk now).resp.resultOf).map
        (fun r => r.context.score)
        = some (if st = StepType.evaluate then
                  ScoreField.numeric
                    (if isTruthy user_input then 1.0 else 0.5)
                else ScoreField.absent)
    ∧ (advance_core inst user_input rag saveOk now).inst.history
        = inst.history
          ++ ((advance_core inst user_input rag saveOk
                now).resp.resultOf).toList := by
  have hc : ¬ inst.is_complete = true := by simp [h]
  refine ⟨?_, ?_, ?_⟩
  · simp [advance_core, hc, hstep, AdvanceResponse.resultOf]
  · simp [advance_core, hc, hstep, AdvanceResponse.resultOf]
    cases st <;> simp [exec_step]
  · simp [advance_core, hc, hstep, AdvanceResponse.resultOf]

/-- Witness for C6: advancing at the `evaluate` step with the non-empty
input `"x"` records score 1.0. -/
theorem advance_evaluate_score_witness :
    sampleAtEvaluate.is_complete = false
    ∧ sampleAtEvaluate.current_step = some StepType.evaluate
    ∧ ((advance_core sampleAtEvaluate (some "x") (Except.ok []) true
          "t1").resp.resultOf).map (fun r => r.context.score)
        = some (ScoreField.numeric 1.0) := by
  have h := advance_evaluate_score sampleAtEvaluate (some "x")
    (Except.ok []) true "t1" StepType.evaluate (by decide) (by decide)
  refine ⟨by decide, by decide, ?_⟩
  rw [h.2.1]
  simp [isTruthy]

/-- The recursive history scan agrees with `List.find?` over the loop
condition: it returns the score of the first entry (in the traversal
order) whose step is `evaluate` and whose score field is numeric. -/
theorem find_eval_score_as_find (l : List StepResult) :
    find_eval_score l
      = (l.find? isEvalNumeric).bind (fun r => r.context.score.toRat) := by
  induction l with
  | nil => rfl
  | cons a t ih =>
      by_cases ha : isEvalNumeric a = true
      · rw [List.find?_cons_of_pos _ ha]
        have hx : a.step = StepType.evaluate
            ∧ a.context.score.isNumeric = true := by
          simpa [isEvalNumeric] using ha
        rcases hscore : a.context.score with _ | _ | q
        · rw [hscore] at hx; simp [ScoreField.isNumeric] at hx
        · rw [hscore] at hx; simp [ScoreField.isNumeric] at hx
        · simp [find_eval_score, hx.1, hscore, ScoreField.toRat]
      · rw [List.find?_cons_of_neg _ ha, ← ih]
        rcases hstep : a.step <;> rcases hscore : a.context.score <;>
          first
            | (simp [find_eval_score, hstep, hscore]; done)
            | exact absurd (by simp [isEvalNumeric, hstep, hscore,
                ScoreField.isNumeric]) ha

/-- C8: on a non-complete process with no supplied score, the effective
score is the first entry of the newest-to-oldest history scan whose step
is `evaluate` and whose `"score"` is numeric — the call behaves exactly as
if that score had been supplied; when the scan finds nothing, the policy
takes the default-progression path (next planned step, confidence 0.6). -/
theorem effective_score_scan (inst : ProcessInstance) (apply saveOk : Bool)
    (h : inst.is_complete = false) :
    (∀ r q, inst.history.reverse.find? isEvalNumeric = some r →
        r.context.score = ScoreField.numeric q →
        suggest_core inst none apply saveOk
          = suggest_core inst (some q) apply saveOk)
    ∧ (inst.history.reverse.find? isEvalNumeric = none →
        (suggest_core inst none apply saveOk).resp.sugg
            = inst.steps[inst.current_index]?
        ∧ (suggest_core inst none apply saveOk).resp.conf = some 0.6) := by
  have hlt : inst.current_index < inst.steps.length :=
    (is_complete_false_iff inst).mp h
  have hc : ¬ inst.is_complete = true := by simp [h]
  constructor
  · intro r q hfind hq
    have he : effective_score inst none = effective_score inst (some q) := by
      show find_eval_score inst.history.reverse = some q
      rw [find_eval_score_as_find, hfind]
      simp [hq, ScoreField.toRat]
    simp only [suggest_core, he]
  · intro hfind
    have he : effective_score inst none = none := by
      show find_eval_score inst.history.reverse = none
      rw [find_eval_score_as_find, hfind]
      rfl
    cases apply <;>
      simp [suggest_core, hc, he, hlt, List.getElem?_eq_getElem hlt,
        SuggestResponse.sugg, SuggestResponse.conf]

/-- Witness for C8: on the feedback-stage process the scan finds the
`evaluate` entry with score 1.0, and the call coincides with supplying
1.0. -/
theorem effective_score_scan_witness :
    sampleAtFeedback.is_complete = false
    ∧ sampleAtFeedback.history.reverse.find? isEvalNumeric
        = some sampleEvalResult
    ∧ sampleEvalResult.context.score = ScoreField.numeric 1.0
    ∧ suggest_core sampleAtFeedback none false true
        = suggest_core sampleAtFeedback (some 1.0) false true := by
  refine ⟨by decide, rfl, rfl, ?_⟩
  exact (effective_score_scan sampleAtFeedback false true (by decide)).1
    sampleEvalResult 1.0 rfl rfl

/-- `suggest_next_step` never moves the cursor or touches history, and can
only lengthen the steps list. -/
theorem suggest_inst_shape (inst : ProcessInstance) (score : Option ℚ)
    (apply saveOk : Bool) :
    (suggest_core inst score apply saveOk).inst.current_index
        = inst.current_index
    ∧ (suggest_core inst score apply saveOk).inst.history = inst.history
    ∧ inst.steps.length
        ≤ (suggest_core inst score apply saveOk).inst.steps.length := by
  by_cases hc : inst.is_complete = true
  · simp [suggest_core, hc]
  · have hc' : inst.is_complete = false := by
      revert hc; cases inst.is_complete <;> simp
    have hlt := (is_complete_false_iff inst).mp hc'
    rcases heff : effective_score inst score with _ | s
    · cases apply <;>
        (simp [suggest_core, hc, heff, hlt,
          List.getElem?_eq_getElem hlt]; try omega)
    · by_cases h1 : s < 0.6
      · cases apply <;> (simp [suggest_core, hc, heff, h1]; try omega)
      · by_cases h2 : s < 0.85
        · cases apply <;>
            (simp [suggest_core, hc, heff, h1, h2]; try omega)
        · cases apply <;>
            (simp [suggest_core, hc, heff, h1, h2]; try omega)

/-- The core invariant, proved by induction over reachability: the cursor
never passes the end of the steps list and history length always equals
the cursor. -/
theorem reachable_inv (inst : ProcessInstance) (h : Reachable inst) :
    inst.current_index ≤ inst.steps.length
    ∧ inst.history.length = inst.current_index := by
  induction h with
  | start pid user_id topic process_type createOk now inst h =>
      unfold start_process at h
      rcases hp : ProcessType.ofString process_type with _ | p <;> rw [hp] at h
      · cases h
      · cases h
        simp
  | advance inst ui rag so now h ih =>
      by_cases hc : inst.is_complete = true
      · simpa [advance_core, hc] using ih
      · have hc' : inst.is_complete = false := by
          revert hc; cases inst.is_complete <;> simp
        have hlt := (is_complete_false_iff inst).mp hc'
        simp [advance_core, hc, ProcessInstance.current_step,
          List.getElem?_eq_getElem hlt]
        omega
  | suggest inst sc ap so h ih =>
      obtain ⟨h1, h2, h3⟩ := suggest_inst_shape inst sc ap so
      obtain ⟨ih1, ih2⟩ := ih
      rw [h1, h2]
      exact ⟨le_trans ih1 h3, ih2⟩

/-- C2: every `ProcessInstance` reachable from `start` by any sequence of
`advance` and `suggest_next_step` operations satisfies
`0 ≤ current_index ≤ len(steps)`, `is_complete ⇔ current_index ==
len(steps)`, and `len(history) == current_index`. -/
theorem process_invariant (inst : ProcessInstance) (h : Reachable inst) :
    0 ≤ inst.current_index
    ∧ inst.current_index ≤ inst.steps.length
    ∧ (inst.is_complete = true
        ↔ inst.current_index = inst.steps.length)
    ∧ inst.history.length = inst.current_index := by
  obtain ⟨h1, h2⟩ := reachable_inv inst h
  refine ⟨Nat.zero_le _, h1, ?_, h2⟩
  rw [is_complete_true_iff]
  omega

/-- Witness for C2: the invariant holds of a freshly started process. -/
theorem process_invariant_witness :
    sampleFundamental.current_index ≤ sampleFundamental.steps.length
    ∧ (sampleFundamental.is_complete = true
        ↔ sampleFundamental.current_index = sampleFundamental.steps.length)
    ∧ sampleFundamental.history.length = sampleFundamental.current_index := by
  have h := process_invariant sampleFundamental
    (Reachable.start "p1" "u1" "loops" "fundamental_explanation" true "t0"
      sampleFundamental rfl)
  exact ⟨h.2.1, h.2.2.1, h.2.2.2⟩

/-- C10: no operation performs an out-of-bounds index into the steps list:
every catalog sequence is non-empty, so `steps[0]` exists right after
`start_process`; `current_step` is only consulted under the not-complete
guard, under which the index is in bounds; `advance` never raises an
`IndexError`; and the get endpoint's `current_step` field (which
substitutes null when complete) never raises either. -/
theorem no_out_of_bounds :
    (∀ p : ProcessType, get_workflow p ≠ [])
    ∧ (∀ pid user_id topic process_type createOk now inst,
        start_process pid user_id topic process_type createOk now
            = Except.ok inst →
        inst.current_step.isSome = true)
    ∧ (∀ inst : ProcessInstance, inst.is_complete = false →
        inst.current_step.isSome = true)
    ∧ (∀ (inst : ProcessInstance) ui rag so now,
        (advance_core inst ui rag so now).resp ≠ AdvanceResponse.raised)
    ∧ (∀ inst : ProcessInstance,
        api_current_step_field inst ≠ Except.error ()) := by
  have hguard : ∀ inst : ProcessInstance, inst.is_complete = false →
      inst.current_step.isSome = true := by
    intro inst hc
    have hlt := (is_complete_false_iff inst).mp hc
    simp [ProcessInstance.current_step, List.getElem?_eq_getElem hlt]
  refine ⟨?_, ?_, hguard, ?_, ?_⟩
  · intro p; cases p <;> decide
  · intro pid user_id topic process_type createOk now inst h
    unfold start_process at h
    rcases hp : ProcessType.ofString process_type with _ | p <;> rw [hp] at h
    · cases h
    · cases h
      cases p <;> rfl
  · intro inst ui rag so now
    by_cases hc : inst.is_complete = true
    · simp [advance_core, hc]
    · have hc' : inst.is_complete = false := by
        revert hc; cases inst.is_complete <;> simp
      have hlt := (is_complete_false_iff inst).mp hc'
      simp [advance_core, hc, ProcessInstance.current_step,
        List.getElem?_eq_getElem hlt]
  · intro inst
    by_cases hc : inst.is_complete = true
    · simp [api_current_step_field, hc]
    · have hc' : inst.is_complete = false := by
        revert hc; cases inst.is_complete <;> simp
      have hlt := (is_complete_false_iff inst).mp hc'
      simp [api_current_step_field, hc, ProcessInstance.current_step,
        List.getElem?_eq_getElem hlt]

/-- Witness for C10: the guard conjuncts applied to concrete instances. -/
theorem no_out_of_bounds_witness :
    sampleFundamental.is_complete = false
    ∧ sampleFundamental.current_step.isSome = true
    ∧ (advance_core sampleDone none (Except.ok []) true "t1").resp
        ≠ AdvanceResponse.raised
    ∧ api_current_step_field sampleDone ≠ Except.error () :=
  ⟨by decide,
   no_out_of_bounds.2.2.1 sampleFundamental (by decide),
   no_out_of_bounds.2.2.2.1 sampleDone none (Except.ok []) true "t1",
   no_out_of_bounds.2.2.2.2 sampleDone⟩

end Learnon
